import Mathlib

/-!
Shallow embedding of the `types` Go package (files `types.go` and `epoch.go`):
two numeric newtypes `Slot` and `Epoch` over `uint64`, with wrapping `Add`/`Mul`,
guarded `Sub` (panics with "underflow") and `Div` (panics with "divbyzero"),
`Mod` (the Go `%` operator itself panics at runtime when the divisor is zero),
cross-type arithmetic variants on `Slot`, conversion functions `ToSlot`/`ToEpoch`,
accessors `Uint64`, and the fixed 8-byte little-endian SSZ encode/decode
(`MarshalSSZ` / `UnmarshalSSZ` / `SizeSSZ`, building on fastssz's
`MarshalUint64` and `UnmarshallUint64`, which are `binary.LittleEndian`
put/read of a `uint64`).

`uint64` values are modelled as `Nat`; operations that wrap in Go take the
result modulo `2^64`. Go panics are modelled as `Except` with an `ArithError`
naming the abort cause. Bytes are modelled as `Fin 256`. The pointer-receiver
`UnmarshalSSZ` mutates the receiver; it is modelled by explicit state passing:
it takes the receiver's current value and returns the (possibly updated)
value together with an optional error.
-/

namespace PrysmTypes

/-- `2^64`, the modulus of Go `uint64` arithmetic. -/
def U64 : Nat := 18446744073709551616

/-- A byte, as produced and consumed by the SSZ buffer functions. -/
abbrev Byte := Fin 256

/-- Abort causes of the arithmetic helpers: `panic("divbyzero")` in `Div`,
`panic("underflow")` in `Sub`, and the Go runtime's integer-divide-by-zero
fault raised by the bare `%` operator in `Mod`. -/
inductive ArithError
  | divideByZero
  | underflow
deriving DecidableEq, Repr

/-- The error value built by `fmt.Errorf("expected buffer of length %d received %d", ...)`
in `UnmarshalSSZ`: it records the expected and the received buffer length. -/
structure SSZError where
  expected : Nat
  received : Nat
deriving DecidableEq, Repr

/-- `type Slot uint64` — represents a single slot. -/
structure Slot where
  val : Nat
deriving DecidableEq, Repr

/-- `type Epoch uint64` — represents a single epoch. -/
structure Epoch where
  val : Nat
deriving DecidableEq, Repr

/-- `ToSlot` returns x converted to Slot. -/
def ToSlot (x : Nat) : Slot := ⟨x⟩

/-- `ToEpoch` returns x converted to Epoch. -/
def ToEpoch (x : Nat) : Epoch := ⟨x⟩

/-- `Uint64` returns slot as underlying type. -/
def Slot.Uint64 (s : Slot) : Nat := s.val

/-- `Uint64` returns epoch as underlying type. -/
def Epoch.Uint64 (e : Epoch) : Nat := e.val

/-- `Mul` multiplies slot by x: `Slot(uint64(s) * x)`, wrapping. -/
def Slot.Mul (s : Slot) (x : Nat) : Slot := ⟨s.val * x % U64⟩

/-- `MulSlot` multiplies slot by another slot: `s * x`, wrapping. -/
def Slot.MulSlot (s : Slot) (x : Slot) : Slot := ⟨s.val * x.val % U64⟩

/-- `MulEpoch` multiplies slot using epoch value: `Slot(uint64(s) * uint64(x))`. -/
def Slot.MulEpoch (s : Slot) (x : Epoch) : Slot := ⟨s.val * x.val % U64⟩

/-- `Div` divides slot by x; `panic("divbyzero")` when `x == 0`, else
truncating unsigned division `Slot(uint64(s) / x)`. -/
def Slot.Div (s : Slot) (x : Nat) : Except ArithError Slot :=
  if x = 0 then .error .divideByZero else .ok ⟨s.val / x⟩

/-- `DivSlot` divides slot by another slot, with the same zero guard. -/
def Slot.DivSlot (s : Slot) (x : Slot) : Except ArithError Slot :=
  if x.val = 0 then .error .divideByZero else .ok ⟨s.val / x.val⟩

/-- `DivEpoch` divides slot using epoch value, with the same zero guard. -/
def Slot.DivEpoch (s : Slot) (x : Epoch) : Except ArithError Slot :=
  if x.val = 0 then .error .divideByZero else .ok ⟨s.val / x.val⟩

/-- `Add` increases slot by x: `Slot(uint64(s) + x)`, wrapping. -/
def Slot.Add (s : Slot) (x : Nat) : Slot := ⟨(s.val + x) % U64⟩

/-- `AddSlot` increases slot by another slot: `s + x`, wrapping. -/
def Slot.AddSlot (s : Slot) (x : Slot) : Slot := ⟨(s.val + x.val) % U64⟩

/-- `AddEpoch` increases slot using epoch value: `Slot(uint64(s) + uint64(x))`. -/
def Slot.AddEpoch (s : Slot) (x : Epoch) : Slot := ⟨(s.val + x.val) % U64⟩

/-- `Sub` subtracts x from the slot; `panic("underflow")` when `uint64(s) < x`. -/
def Slot.Sub (s : Slot) (x : Nat) : Except ArithError Slot :=
  if s.val < x then .error .underflow else .ok ⟨s.val - x⟩

/-- `SubSlot` finds difference between two slot values; `panic("underflow")` when `s < x`. -/
def Slot.SubSlot (s : Slot) (x : Slot) : Except ArithError Slot :=
  if s.val < x.val then .error .underflow else .ok ⟨s.val - x.val⟩

/-- `SubEpoch` subtracts value of epoch type from the slot, with the same guard. -/
def Slot.SubEpoch (s : Slot) (x : Epoch) : Except ArithError Slot :=
  if s.val < x.val then .error .underflow else .ok ⟨s.val - x.val⟩

/-- `Mod` returns `slot % x`; the Go `%` operator faults at runtime when `x == 0`. -/
def Slot.Mod (s : Slot) (x : Nat) : Except ArithError Slot :=
  if x = 0 then .error .divideByZero else .ok ⟨s.val % x⟩

/-- `ModSlot` returns `slot % slot`, with the same runtime fault on zero. -/
def Slot.ModSlot (s : Slot) (x : Slot) : Except ArithError Slot :=
  if x.val = 0 then .error .divideByZero else .ok ⟨s.val % x.val⟩

/-- `ModEpoch` returns `slot % epoch`, with the same runtime fault on zero. -/
def Slot.ModEpoch (s : Slot) (x : Epoch) : Except ArithError Slot :=
  if x.val = 0 then .error .divideByZero else .ok ⟨s.val % x.val⟩

/-- `Mul` multiplies epoch by x: `Epoch(uint64(e) * x)`, wrapping. -/
def Epoch.Mul (e : Epoch) (x : Nat) : Epoch := ⟨e.val * x % U64⟩

/-- `Div` divides epoch by x; `panic("divbyzero")` when `x == 0`. -/
def Epoch.Div (e : Epoch) (x : Nat) : Except ArithError Epoch :=
  if x = 0 then .error .divideByZero else .ok ⟨e.val / x⟩

/-- `Add` increases epoch by x: `Epoch(uint64(e) + x)`, wrapping. -/
def Epoch.Add (e : Epoch) (x : Nat) : Epoch := ⟨(e.val + x) % U64⟩

/-- `Sub` subtracts x from the epoch; `panic("underflow")` when `uint64(e) < x`. -/
def Epoch.Sub (e : Epoch) (x : Nat) : Except ArithError Epoch :=
  if e.val < x then .error .underflow else .ok ⟨e.val - x⟩

/-- `Mod` returns `epoch % x`; the Go `%` operator faults at runtime when `x == 0`. -/
def Epoch.Mod (e : Epoch) (x : Nat) : Except ArithError Epoch :=
  if x = 0 then .error .divideByZero else .ok ⟨e.val % x⟩

/-- fastssz `MarshalUint64(dst, i)`: appends the 8 bytes of `i` to `dst` in
little-endian order (`binary.LittleEndian.PutUint64`). -/
def MarshalUint64 (dst : List Byte) (i : Nat) : List Byte :=
  dst ++ [⟨i % 256, by omega⟩,
          ⟨i / 256 % 256, by omega⟩,
          ⟨i / 65536 % 256, by omega⟩,
          ⟨i / 16777216 % 256, by omega⟩,
          ⟨i / 4294967296 % 256, by omega⟩,
          ⟨i / 1099511627776 % 256, by omega⟩,
          ⟨i / 281474976710656 % 256, by omega⟩,
          ⟨i / 72057594037927936 % 256, by omega⟩]

/-- fastssz `UnmarshallUint64(src)`: reads the first 8 bytes of `src` as a
little-endian `uint64` (`binary.LittleEndian.Uint64`). -/
def UnmarshallUint64 (src : List Byte) : Nat :=
  (src.getD 0 0).val
    + (src.getD 1 0).val * 256
    + (src.getD 2 0).val * 65536
    + (src.getD 3 0).val * 16777216
    + (src.getD 4 0).val * 4294967296
    + (src.getD 5 0).val * 1099511627776
    + (src.getD 6 0).val * 281474976710656
    + (src.getD 7 0).val * 72057594037927936

/-- `SizeSSZ` returns the size of the serialized object: always 8. -/
def Slot.SizeSSZ (_ : Slot) : Nat := 8

/-- `SizeSSZ` returns the size of the serialized object: always 8. -/
def Epoch.SizeSSZ (_ : Epoch) : Nat := 8

/-- `MarshalSSZ` marshals slot into a serialized object:
`fssz.MarshalUint64([]byte{}, s.Uint64())`; its Go error result is always nil. -/
def Slot.MarshalSSZ (s : Slot) : List Byte := MarshalUint64 [] s.Uint64

/-- `MarshalSSZ` marshals epoch into a serialized object; error always nil. -/
def Epoch.MarshalSSZ (e : Epoch) : List Byte := MarshalUint64 [] e.Uint64

/-- `UnmarshalSSZ` deserializes the buffer into the slot object. The Go method
mutates the receiver through a pointer; here the receiver's current value goes
in and the (possibly updated) value comes out, together with the optional
error: when `len(buf) != s.SizeSSZ()` the receiver is untouched and the
length error is returned, otherwise the receiver is overwritten with
`Slot(fssz.UnmarshallUint64(buf))` and the error is nil. -/
def Slot.UnmarshalSSZ (s : Slot) (buf : List Byte) : Slot × Option SSZError :=
  if buf.length ≠ s.SizeSSZ then (s, some ⟨s.SizeSSZ, buf.length⟩)
  else (⟨UnmarshallUint64 buf⟩, none)

/-- `UnmarshalSSZ` deserializes the buffer into the epoch object, same shape
as the Slot method. -/
def Epoch.UnmarshalSSZ (e : Epoch) (buf : List Byte) : Epoch × Option SSZError :=
  if buf.length ≠ e.SizeSSZ then (e, some ⟨e.SizeSSZ, buf.length⟩)
  else (⟨UnmarshallUint64 buf⟩, none)


/-- Encoding appends exactly 8 bytes. -/
theorem marshalUint64_length (dst : List Byte) (v : Nat) :
    (MarshalUint64 dst v).length = dst.length + 8 := by
  simp [MarshalUint64]

/-- Little-endian decode inverts little-endian encode on any value below `2^64`. -/
theorem unmarshall_marshall (v : Nat) (hv : v < U64) :
    UnmarshallUint64 (MarshalUint64 [] v) = v := by
  simp [UnmarshallUint64, MarshalUint64, List.getD, U64] at *
  omega

/-- The decoder computes the little-endian value of the first 8 bytes. -/
theorem unmarshall_as_sum (buf : List Byte) :
    UnmarshallUint64 buf =
      Finset.sum (Finset.range 8) (fun i => (buf.getD i 0).val * 256 ^ i) := by
  simp [UnmarshallUint64, Finset.sum_range_succ]

/-- C1: for every uint64 value v, MarshalSSZ (on Slot and on Epoch) produces a
buffer of exactly 8 bytes, and UnmarshalSSZ on that buffer succeeds and yields
v back regardless of the receiver's prior value: Decode(Encode(v)) == v. -/
theorem ssz_encode_length_and_roundtrip (v : Nat) (hv : v < U64) (s : Slot) (e : Epoch) :
    (ToSlot v).MarshalSSZ.length = 8 ∧
    (ToEpoch v).MarshalSSZ.length = 8 ∧
    s.UnmarshalSSZ ((ToSlot v).MarshalSSZ) = (ToSlot v, none) ∧
    e.UnmarshalSSZ ((ToEpoch v).MarshalSSZ) = (ToEpoch v, none) := by
  have h1 : UnmarshallUint64 (MarshalUint64 [] v) = v := unmarshall_marshall v hv
  have h2 : (MarshalUint64 [] v).length = 8 := marshalUint64_length [] v
  refine ⟨h2, h2, ?_, ?_⟩
  · simp [Slot.UnmarshalSSZ, Slot.SizeSSZ, Slot.MarshalSSZ, ToSlot, Slot.Uint64, h1, h2]
  · simp [Epoch.UnmarshalSSZ, Epoch.SizeSSZ, Epoch.MarshalSSZ, ToEpoch, Epoch.Uint64, h1, h2]

theorem ssz_encode_length_and_roundtrip_witness :
    (300 : Nat) < U64 ∧
    ((ToSlot 300).MarshalSSZ.length = 8 ∧
     (ToEpoch 300).MarshalSSZ.length = 8 ∧
     Slot.UnmarshalSSZ ⟨7⟩ ((ToSlot 300).MarshalSSZ) = (ToSlot 300, none) ∧
     Epoch.UnmarshalSSZ ⟨7⟩ ((ToEpoch 300).MarshalSSZ) = (ToEpoch 300, none)) :=
  ⟨by decide, ssz_encode_length_and_roundtrip 300 (by decide) ⟨7⟩ ⟨7⟩⟩

end PrysmTypes

namespace PrysmTypes

/-- C2: for every buffer whose length is not 8, UnmarshalSSZ (Slot and Epoch)
returns the typed InvalidLength error and no other outcome; for every buffer
of length exactly 8 it succeeds, reading the bytes as a little-endian
unsigned 64-bit integer. -/
theorem unmarshalSSZ_length_check (s : Slot) (e : Epoch) (buf : List Byte) :
    (buf.length ≠ 8 →
      s.UnmarshalSSZ buf = (s, some ⟨8, buf.length⟩) ∧
      e.UnmarshalSSZ buf = (e, some ⟨8, buf.length⟩)) ∧
    (buf.length = 8 →
      s.UnmarshalSSZ buf =
        (⟨Finset.sum (Finset.range 8) (fun i => (buf.getD i 0).val * 256 ^ i)⟩, none) ∧
      e.UnmarshalSSZ buf =
        (⟨Finset.sum (Finset.range 8) (fun i => (buf.getD i 0).val * 256 ^ i)⟩, none)) := by
  constructor
  · intro h
    simp [Slot.UnmarshalSSZ, Epoch.UnmarshalSSZ, Slot.SizeSSZ, Epoch.SizeSSZ, h]
  · intro h
    simp [Slot.UnmarshalSSZ, Epoch.UnmarshalSSZ, Slot.SizeSSZ, Epoch.SizeSSZ, h]
    simpa using (unmarshall_as_sum buf)

theorem unmarshalSSZ_length_check_witness :
    (Slot.UnmarshalSSZ ⟨5⟩ [] = (⟨5⟩, some ⟨8, 0⟩) ∧
     Epoch.UnmarshalSSZ ⟨6⟩ [] = (⟨6⟩, some ⟨8, 0⟩)) :=
  (unmarshalSSZ_length_check ⟨5⟩ ⟨6⟩ []).1 (by decide)

/-- C3: for all values a and b (Slot and Epoch), Sub(a, b) fails with
Underflow exactly when b > a, otherwise returns a - b; in particular
Sub(a, a) succeeds and returns 0. -/
theorem sub_underflow_iff (a b : Slot) (c d : Epoch) :
    (a.Sub b.val = .error .underflow ↔ b.val > a.val) ∧
    (b.val ≤ a.val → a.Sub b.val = .ok ⟨a.val - b.val⟩) ∧
    a.Sub a.val = .ok ⟨0⟩ ∧
    (c.Sub d.val = .error .underflow ↔ d.val > c.val) ∧
    (d.val ≤ c.val → c.Sub d.val = .ok ⟨c.val - d.val⟩) ∧
    c.Sub c.val = .ok ⟨0⟩ := by
  unfold Slot.Sub Epoch.Sub
  refine ⟨?_, ?_, ?_, ?_, ?_, ?_⟩
  · split <;> simp_all
  · intro h; simp [Nat.not_lt.mpr h]
  · simp
  · split <;> simp_all
  · intro h; simp [Nat.not_lt.mpr h]
  · simp

theorem sub_underflow_iff_witness :
    Slot.Sub ⟨3⟩ 5 = .error .underflow :=
  (sub_underflow_iff ⟨3⟩ ⟨5⟩ ⟨0⟩ ⟨0⟩).1.mpr (by decide)

/-- C4: for all values a (Slot and Epoch) and divisors x, Div(a, x) fails
with DivideByZero exactly when x == 0, and for nonzero x returns the
truncating unsigned quotient; DivSlot and DivEpoch follow the same rule. -/
theorem div_divideByZero_iff (a : Slot) (c : Epoch) (x : Nat) (t : Slot) (u : Epoch) :
    (a.Div x = .error .divideByZero ↔ x = 0) ∧
    (x ≠ 0 → a.Div x = .ok ⟨a.val / x⟩) ∧
    (c.Div x = .error .divideByZero ↔ x = 0) ∧
    (x ≠ 0 → c.Div x = .ok ⟨c.val / x⟩) ∧
    (a.DivSlot t = .error .divideByZero ↔ t.val = 0) ∧
    (a.DivEpoch u = .error .divideByZero ↔ u.val = 0) := by
  unfold Slot.Div Epoch.Div Slot.DivSlot Slot.DivEpoch
  refine ⟨?_, ?_, ?_, ?_, ?_, ?_⟩
  · split <;> simp_all
  · intro h; simp [h]
  · split <;> simp_all
  · intro h; simp [h]
  · split <;> simp_all
  · split <;> simp_all

theorem div_divideByZero_iff_witness :
    Epoch.Div ⟨10⟩ 0 = .error .divideByZero :=
  (div_divideByZero_iff ⟨0⟩ ⟨10⟩ 0 ⟨1⟩ ⟨1⟩).2.2.1.mpr rfl


/-- Wrapped recombination: for `n < 2^64` the quotient-times-divisor plus
remainder recovers `n`, the intermediate `% U64` reductions being identities. -/
theorem wrap_div_mod (n y : Nat) (hn : n < U64) :
    (n / y * y % U64 + n % y) % U64 = n := by
  have h1 : n / y * y ≤ n := Nat.div_mul_le_self n y
  have h2 : n / y * y + n % y = n := Nat.div_add_mod' n y
  have h3 : n / y * y + n % y < U64 := by rw [h2]; exact hn
  rw [Nat.mod_eq_of_lt (lt_of_le_of_lt h1 hn), Nat.mod_eq_of_lt h3, h2]

/-- C5: for all x and nonzero y, Div(x,y) * y + Mod(x,y) == x, the products
and sums taken with the wrapping uint64 Mul and Add, for Slot and Epoch. -/
theorem div_mod_identity (x : Slot) (c : Epoch) (y : Nat) (hy : y ≠ 0)
    (hx : x.val < U64) (hc : c.val < U64) :
    ∃ d m dd mm,
      x.Div y = .ok d ∧ x.Mod y = .ok m ∧ (d.Mul y).Add m.val = x ∧
      c.Div y = .ok dd ∧ c.Mod y = .ok mm ∧ (dd.Mul y).Add mm.val = c := by
  obtain ⟨xv⟩ := x
  obtain ⟨cv⟩ := c
  refine ⟨⟨xv / y⟩, ⟨xv % y⟩, ⟨cv / y⟩, ⟨cv % y⟩, ?_, ?_, ?_, ?_, ?_, ?_⟩
  · simp [Slot.Div, hy]
  · simp [Slot.Mod, hy]
  · simp only [Slot.Mul, Slot.Add, Slot.mk.injEq]
    exact wrap_div_mod xv y hx
  · simp [Epoch.Div, hy]
  · simp [Epoch.Mod, hy]
  · simp only [Epoch.Mul, Epoch.Add, Epoch.mk.injEq]
    exact wrap_div_mod cv y hc

theorem div_mod_identity_witness :
    (2 : Nat) ≠ 0 ∧
    ∃ d m dd mm,
      Slot.Div ⟨7⟩ 2 = .ok d ∧ Slot.Mod ⟨7⟩ 2 = .ok m ∧ (d.Mul 2).Add m.val = ⟨7⟩ ∧
      Epoch.Div ⟨10⟩ 2 = .ok dd ∧ Epoch.Mod ⟨10⟩ 2 = .ok mm ∧ (dd.Mul 2).Add mm.val = ⟨10⟩ :=
  ⟨by decide, div_mod_identity ⟨7⟩ ⟨10⟩ 2 (by decide) (by decide) (by decide)⟩

/-- C6: for Slot and Epoch, Mod with divisor 0 fails with the very same
DivideByZero outcome as Div with divisor 0; for nonzero x, Mod(value, x)
returns value % x (also for ModSlot and ModEpoch). -/
theorem mod_zero_matches_div (s : Slot) (e : Epoch) (x : Nat) (t : Slot) (u : Epoch) :
    e.Mod 0 = e.Div 0 ∧ s.Mod 0 = s.Div 0 ∧
    e.Mod 0 = .error .divideByZero ∧ s.Mod 0 = .error .divideByZero ∧
    (x ≠ 0 → e.Mod x = .ok ⟨e.val % x⟩) ∧
    (x ≠ 0 → s.Mod x = .ok ⟨s.val % x⟩) ∧
    (t.val = 0 → s.ModSlot t = s.DivSlot t) ∧
    (u.val = 0 → s.ModEpoch u = s.DivEpoch u) ∧
    (t.val ≠ 0 → s.ModSlot t = .ok ⟨s.val % t.val⟩) ∧
    (u.val ≠ 0 → s.ModEpoch u = .ok ⟨s.val % u.val⟩) := by
  unfold Slot.Mod Epoch.Mod Slot.Div Epoch.Div Slot.ModSlot Slot.ModEpoch Slot.DivSlot Slot.DivEpoch
  refine ⟨by simp, by simp, by simp, by simp, ?_, ?_, ?_, ?_, ?_, ?_⟩ <;> intro h <;> simp [h]

theorem mod_zero_matches_div_witness :
    Epoch.Mod ⟨9⟩ 0 = Epoch.Div ⟨9⟩ 0 ∧ (3 : Nat) ≠ 0 ∧ Slot.Mod ⟨7⟩ 3 = .ok ⟨1⟩ :=
  ⟨(mod_zero_matches_div ⟨7⟩ ⟨9⟩ 3 ⟨1⟩ ⟨1⟩).1, by decide,
   (mod_zero_matches_div ⟨7⟩ ⟨9⟩ 3 ⟨1⟩ ⟨1⟩).2.2.2.2.2.1 (by decide)⟩

/-- C7: each cross-type variant on Slot equals the base uint64 operation
applied to the other value's raw integer, with identical failure behaviour:
s.AddSlot t == s.Add(t.Uint64()), s.AddEpoch e == s.Add(e.Uint64()), and
likewise for Sub, Mul, Div and Mod. -/
theorem cross_type_variants_eq_base (s t : Slot) (e : Epoch) :
    s.AddSlot t = s.Add t.Uint64 ∧ s.AddEpoch e = s.Add e.Uint64 ∧
    s.SubSlot t = s.Sub t.Uint64 ∧ s.SubEpoch e = s.Sub e.Uint64 ∧
    s.MulSlot t = s.Mul t.Uint64 ∧ s.MulEpoch e = s.Mul e.Uint64 ∧
    s.DivSlot t = s.Div t.Uint64 ∧ s.DivEpoch e = s.Div e.Uint64 ∧
    s.ModSlot t = s.Mod t.Uint64 ∧ s.ModEpoch e = s.Mod e.Uint64 :=
  ⟨rfl, rfl, rfl, rfl, rfl, rfl, rfl, rfl, rfl, rfl⟩

/-- C8: Add and Mul never fail (they are total functions here) and return
the sum respectively product reduced modulo 2^64, the native unsigned
64-bit wraparound, for both Slot and Epoch. -/
theorem add_mul_wraparound (v : Slot) (w : Epoch) (x : Nat) :
    (v.Add x).val = (v.val + x) % U64 ∧
    (v.Mul x).val = v.val * x % U64 ∧
    (w.Add x).val = (w.val + x) % U64 ∧
    (w.Mul x).val = w.val * x % U64 :=
  ⟨rfl, rfl, rfl, rfl⟩

/-- C9: conversion between the raw integer and the wrapper types is
lossless: ToEpoch(ToSlot(x).Uint64()).Uint64() == x, and Uint64 returns the
underlying raw value unchanged for both Slot and Epoch. -/
theorem conversion_lossless (x : Nat) :
    (ToEpoch ((ToSlot x).Uint64)).Uint64 = x ∧
    (ToSlot x).Uint64 = x ∧ (ToEpoch x).Uint64 = x :=
  ⟨rfl, rfl, rfl⟩

/-- C10: when UnmarshalSSZ is called with a buffer whose length is not 8,
it returns the length error and leaves the receiver's value unchanged: no
partial write happens on the error path (Slot and Epoch). -/
theorem unmarshalSSZ_error_preserves_receiver (s : Slot) (e : Epoch)
    (buf : List Byte) (h : buf.length ≠ 8) :
    (s.UnmarshalSSZ buf).1 = s ∧ (s.UnmarshalSSZ buf).2 = some ⟨8, buf.length⟩ ∧
    (e.UnmarshalSSZ buf).1 = e ∧ (e.UnmarshalSSZ buf).2 = some ⟨8, buf.length⟩ := by
  simp [Slot.UnmarshalSSZ, Epoch.UnmarshalSSZ, Slot.SizeSSZ, Epoch.SizeSSZ, h]

theorem unmarshalSSZ_error_preserves_receiver_witness :
    (Slot.UnmarshalSSZ ⟨3⟩ [0, 0, 0]).1 = ⟨3⟩ ∧
    (Slot.UnmarshalSSZ ⟨3⟩ [0, 0, 0]).2 = some ⟨8, 3⟩ ∧
    (Epoch.UnmarshalSSZ ⟨4⟩ [0, 0, 0]).1 = ⟨4⟩ ∧
    (Epoch.UnmarshalSSZ ⟨4⟩ [0, 0, 0]).2 = some ⟨8, 3⟩ :=
  unmarshalSSZ_error_preserves_receiver ⟨3⟩ ⟨4⟩ [0, 0, 0] (by decide)

end PrysmTypes
